import Mathlib

/-!
Verification development for the OpenTofu command runner, output summarizer
and deployment step ledger of the bagel-backend service
(src/controllers/terrafrom/tofuInjector.ts, src/routes/tofuRoutes.ts).

The TypeScript code is shallowly embedded: pure string processing becomes
Lean functions on `String`/`List Char`, the MongoDB-backed deployment
collection becomes a `List Deployment` with update-first-match semantics
mirroring `updateOne`, and the asynchronous process interactions are
modelled as explicit event traces.
-/

namespace Bagel

/-- The JavaScript regular-expression whitespace class (the character set
matched by the regex escape for whitespace used at tofuInjector.ts:35,47,59
and in the path-escaping regex at line 131). Code points per ECMA-262:
tab, LF, VT, FF, CR, space, NBSP, Ogham space mark, the U+2000..200A range,
line/paragraph separators, narrow NBSP, medium mathematical space,
ideographic space and the BOM. -/
def isJsWs (c : Char) : Bool :=
  let n := c.toNat
  n = 0x20 || n = 0x09 || n = 0x0A || n = 0x0B || n = 0x0C || n = 0x0D ||
  n = 0xA0 || n = 0x1680 || (0x2000 ≤ n && n ≤ 0x200A) ||
  n = 0x2028 || n = 0x2029 || n = 0x202F || n = 0x205F || n = 0x3000 || n = 0xFEFF

/-- Strip an exact literal from the front of the input (the literal parts of
the three summary regexes), returning the rest on success. -/
def stripLit : List Char → List Char → Option (List Char)
  | [], input => some input
  | _ :: _, [] => none
  | p :: ps, c :: cs => if p = c then stripLit ps cs else none

/-- One-or-more whitespace (the regex whitespace-plus quantifier): requires at
least one whitespace character, then consumes the maximal whitespace run.
Maximal munch is exact here because in every use site the next pattern
element starts with a non-whitespace character. -/
def stripWs1 (input : List Char) : Option (List Char) :=
  match input with
  | [] => none
  | c :: cs => if isJsWs c then some (cs.dropWhile isJsWs) else none

/-- Decimal value of a digit string — the value `parseInt(s, 10)` computes on
a capture of one-or-more digits. -/
def digitsVal (ds : List Char) : Nat :=
  ds.foldl (fun a c => a * 10 + (c.toNat - 48)) 0

/-- One-or-more digits (the regex digit-plus capture group): requires at least
one decimal digit, consumes the maximal digit run and returns its value.
Maximal munch is exact because each capture is followed by a whitespace
element, which cannot match a digit. -/
def readNat1 (input : List Char) : Option (Nat × List Char) :=
  match input with
  | [] => none
  | c :: cs =>
    if c.isDigit then
      some (digitsVal (c :: cs.takeWhile Char.isDigit), cs.dropWhile Char.isDigit)
    else none

/-- Attempt the pattern `Plan: <N> to add, <N> to change, <N> to destroy`
(tofuInjector.ts:34-36) at the current position. -/
def matchPlanAt (input : List Char) : Option (Nat × Nat × Nat) := do
  let r ← stripLit "Plan:".data input
  let r ← stripWs1 r
  let (a, r) ← readNat1 r
  let r ← stripWs1 r
  let r ← stripLit "to add,".data r
  let r ← stripWs1 r
  let (c, r) ← readNat1 r
  let r ← stripWs1 r
  let r ← stripLit "to change,".data r
  let r ← stripWs1 r
  let (d, r) ← readNat1 r
  let r ← stripWs1 r
  let _ ← stripLit "to destroy".data r
  some (a, c, d)

/-- Attempt the pattern `Apply complete! Resources: <N> added, <N> changed,
<N> destroyed` (tofuInjector.ts:46-48) at the current position. -/
def matchApplyAt (input : List Char) : Option (Nat × Nat × Nat) := do
  let r ← stripLit "Apply complete! Resources:".data input
  let r ← stripWs1 r
  let (a, r) ← readNat1 r
  let r ← stripWs1 r
  let r ← stripLit "added,".data r
  let r ← stripWs1 r
  let (c, r) ← readNat1 r
  let r ← stripWs1 r
  let r ← stripLit "changed,".data r
  let r ← stripWs1 r
  let (d, r) ← readNat1 r
  let r ← stripWs1 r
  let _ ← stripLit "destroyed".data r
  some (a, c, d)

/-- Attempt the pattern `Destroy complete! Resources: <N> destroyed`
(tofuInjector.ts:58-60) at the current position. -/
def matchDestroyAt (input : List Char) : Option Nat := do
  let r ← stripLit "Destroy complete! Resources:".data input
  let r ← stripWs1 r
  let (d, r) ← readNat1 r
  let r ← stripWs1 r
  let _ ← stripLit "destroyed".data r
  some d

/-- Unanchored regex search: try the pattern at every position, leftmost
success wins — the semantics of JavaScript `String.prototype.match` for the
patterns above. -/
def searchSome {α : Type} (f : List Char → Option α) : List Char → Option α
  | [] => f []
  | c :: cs =>
    match f (c :: cs) with
    | some r => some r
    | none => searchSome f cs

/-- `line.match(planRegex)` reduced to its captures. -/
def matchPlan (line : List Char) : Option (Nat × Nat × Nat) :=
  searchSome matchPlanAt line

/-- `line.match(applyRegex)` reduced to its captures. -/
def matchApply (line : List Char) : Option (Nat × Nat × Nat) :=
  searchSome matchApplyAt line

/-- `line.match(destroyRegex)` reduced to its capture. -/
def matchDestroy (line : List Char) : Option Nat :=
  searchSome matchDestroyAt line

/-- The summary record of `CommandResult` (tofuInjector.ts:16-23): six
optional numeric fields; each of the three match branches sets only its own
three (or one) fields. -/
structure Summary where
  toAdd : Option Nat := none
  toChange : Option Nat := none
  toDestroy : Option Nat := none
  added : Option Nat := none
  changed : Option Nat := none
  destroyed : Option Nat := none
deriving DecidableEq, Repr

/-- The record built from a plan-pattern match (tofuInjector.ts:38-42). -/
def planSummary (a c d : Nat) : Summary :=
  { toAdd := some a, toChange := some c, toDestroy := some d }

/-- The record built from an apply-pattern match (tofuInjector.ts:50-54). -/
def applySummary (a c d : Nat) : Summary :=
  { added := some a, changed := some c, destroyed := some d }

/-- The record built from a destroy-pattern match (tofuInjector.ts:62-64). -/
def destroySummary (d : Nat) : Summary :=
  { destroyed := some d }

/-- `stdout.split` on the newline character: JavaScript string split with a
plain one-character separator. -/
def splitLines : List Char → List (List Char)
  | [] => [[]]
  | c :: cs =>
    let r := splitLines cs
    if c = '\n' then [] :: r
    else
      match r with
      | l :: ls => (c :: l) :: ls
      | [] => [[c]]

/-- The body of the line loop of `parseTofuSummary` (tofuInjector.ts:33-67):
per line, try the plan pattern, then the apply pattern, then the destroy
pattern; the first line where one of them matches decides the summary and
the loop breaks; if no line matches the summary stays null. -/
def parseTofuSummaryLines : List (List Char) → Option Summary
  | [] => none
  | line :: rest =>
    match matchPlan line with
    | some (a, c, d) => some (planSummary a c d)
    | none =>
      match matchApply line with
      | some (a, c, d) => some (applySummary a c d)
      | none =>
        match matchDestroy line with
        | some d => some (destroySummary d)
        | none => parseTofuSummaryLines rest

/-- `parseTofuSummary` (tofuInjector.ts:29-70): split the captured stdout on
newlines and scan the lines. -/
def parseTofuSummary (stdout : String) : Option Summary :=
  parseTofuSummaryLines (splitLines stdout.data)

/-- The per-line decision, used to state first-match-wins via
`List.findSome?`. -/
def lineSummary (line : List Char) : Option Summary :=
  match matchPlan line with
  | some (a, c, d) => some (planSummary a c d)
  | none =>
    match matchApply line with
    | some (a, c, d) => some (applySummary a c d)
    | none => (matchDestroy line).map destroySummary

/-! ## Command runner: stream capture and `combined` (tofuInjector.ts:160-178) -/

/-- Which stream a data chunk of the spawned process arrived on. -/
inductive StreamTag
  | out
  | err
deriving DecidableEq, Repr

/-- The data events of one process run, in chronological arrival order; each
entry is one chunk delivered to the handler of its stream. -/
abbrev ChunkTrace := List (StreamTag × String)

/-- The buffer accumulated by the per-stream data handler
(tofuInjector.ts:168-174): chunks of the given stream are appended in
arrival order, chunks of the other stream are ignored. -/
def collectStream (tag : StreamTag) (t : ChunkTrace) : String :=
  t.foldl (fun buf c => if c.1 = tag then buf ++ c.2 else buf) ""

/-- The `combined` field (tofuInjector.ts:178): the full stdout buffer
followed by the full stderr buffer. -/
def combinedOf (t : ChunkTrace) : String :=
  collectStream .out t ++ collectStream .err t

/-- Concatenation of all chunks in true chronological arrival order,
regardless of stream — the spec's reading of `combined`. -/
def arrivalConcat (t : ChunkTrace) : String :=
  t.foldl (fun buf c => buf ++ c.2) ""

/-! ## Command runner: shell string construction (tofuInjector.ts:131-148) -/

/-- Whether a character is in the escaped set of the path-escaping regex at
tofuInjector.ts:131: double quote (0x22), any whitespace, single quote
(0x27), dollar (0x24), backtick (0x60) or backslash (0x5C). -/
def isShellSpecial (c : Char) : Bool :=
  c.toNat = 0x22 || isJsWs c || c.toNat = 0x27 ||
  c.toNat = 0x24 || c.toNat = 0x60 || c.toNat = 0x5C

/-- Per-character replacement of the global regex replace at
tofuInjector.ts:131: a character of the escaped set is prefixed with a
backslash (0x5C), every other character is kept as is. -/
def escapeChar (c : Char) : List Char :=
  if isShellSpecial c then [Char.ofNat 0x5C, c] else [c]

/-- `safePath` (tofuInjector.ts:131): the workspace path with every
character of the escaped set prefixed by a backslash, scanning left to
right as the global replace does. -/
def shellEscape (s : String) : String :=
  String.mk (s.data.foldl (fun acc c => acc ++ escapeChar c) [])

/-- `fullCmd` (tofuInjector.ts:133): the command sequence joined with the
shell AND operator. -/
def fullCmd (commands : List String) : String :=
  String.intercalate " && " commands

/-- `wrappedCmd` (tofuInjector.ts:135): change into the escaped workspace
path, run the AND-chain, and redirect the error stream into the success
stream at the shell level. -/
def wrappedCmd (workspacePath : String) (commands : List String) : String :=
  "cd " ++ shellEscape workspacePath ++ " && " ++ fullCmd commands ++ " 2>&1"

/-- Specification-side escaping (spec section 4.1): every character of the
set is quoted, realised as an independent per-character map for comparison
with the scanning implementation `shellEscape`. -/
def specEscape (s : String) : String :=
  String.mk (s.data.map escapeChar).flatten

/-- Specification-side chain string: the explicit shape
cmd1 AND cmd2 AND ... over a non-empty command list. -/
def chainJoin (c : String) : List String → String
  | [] => c
  | d :: ds => c ++ " && " ++ chainJoin d ds

/-- Modelled from the spec: POSIX-shell AND-chain execution semantics (spec
section 4.1 — a failing command short-circuits subsequent commands in the
chain). The shell itself is an external collaborator, not code under src/.
Given the exit code of each command, returns the commands actually run and
the chain's final exit code. -/
def andChainRun (exec : String → Int) : List String → List String × Int
  | [] => ([], 0)
  | c :: cs =>
    if exec c = 0 then
      ((andChainRun exec cs).1.cons c, (andChainRun exec cs).2)
    else ([c], exec c)

/-! ## Command runner: result assembly and log read-back
(tofuInjector.ts:150-233) -/

/-- The `CommandResult` value resolved by `runCommands`
(tofuInjector.ts:10-24, 220-227). The exit code is absent when the process
was terminated by a signal. -/
structure CommandResult where
  exitCode : Option Int
  stdout : String
  stderr : String
  combined : String
  logFileContent : String
  summary : Option Summary
deriving DecidableEq, Repr

/-- How the secondary log read-back invocation ended
(tofuInjector.ts:185-214): its close event fired without intervention, the
3-second timer killed it first (after which its close event still fires), or
its error event fired. -/
inductive LogReadOutcome
  | closedNormally
  | killedByTimeout
  | errored
deriving DecidableEq, Repr

/-- One observed run of the log read-back process: the stdout chunks it
delivered before terminating, and how it terminated. -/
structure LogReadTrace where
  chunks : List String
  outcome : LogReadOutcome
deriving DecidableEq, Repr

/-- The hard timeout of the log read-back (tofuInjector.ts:202). -/
def logReadTimeoutMs : Nat := 3000

/-- The `logFileContent` produced by the read-back handlers
(tofuInjector.ts:193-214): the data handler accumulates chunks into the log
buffer; the close handler — which fires both on normal completion and after
the timeout kill — stores the accumulated buffer; the error handler leaves
the initial empty string in place. -/
def logFileContentOf (t : LogReadTrace) : String :=
  match t.outcome with
  | .errored => ""
  | _ => String.join t.chunks

/-- How the primary spawned process ended: its close event fired with an
exit code (absent when killed by a signal), or its error event fired because
the process could not be spawned at all (tofuInjector.ts:176, 230-232). -/
inductive ProcTerminal
  | closed (code : Option Int)
  | spawnError
deriving DecidableEq, Repr

/-- One observed run of the primary process: its data chunks in arrival
order and its terminal event. -/
structure ProcTrace where
  chunks : ChunkTrace
  terminal : ProcTerminal
deriving DecidableEq, Repr

/-- `logFilePath` is non-empty iff logging is enabled and the workspace path
contains no space character (tofuInjector.ts:151-158). -/
def loggingActive (enableLogging : Bool) (workspacePath : String) : Bool :=
  enableLogging && !(workspacePath.data.any (fun c => c = ' '))

/-- The promise of `runCommands` (tofuInjector.ts:129-233) as a function of
the observed process traces: reject exactly when the primary process could
not be spawned; otherwise resolve the `CommandResult` assembled at
tofuInjector.ts:220-227 — exit code from the close event, the two stream
buffers, `combined` as stdout buffer followed by stderr buffer, the log
read-back content when logging was active, and the summary parsed from the
stdout buffer. -/
def runCommandsResult (p : ProcTrace) (lt : LogReadTrace)
    (enableLogging : Bool) (workspacePath : String) :
    Except Unit CommandResult :=
  match p.terminal with
  | .spawnError => .error ()
  | .closed code =>
    .ok { exitCode := code
          stdout := collectStream .out p.chunks
          stderr := collectStream .err p.chunks
          combined := combinedOf p.chunks
          logFileContent :=
            if loggingActive enableLogging workspacePath then logFileContentOf lt else ""
          summary := parseTofuSummary (collectStream .out p.chunks) }

/-! ## Deployment step ledger (tofuInjector.ts:274-330, 369-375, 426-432,
477-483, 513-528) -/

/-- The step kinds recorded in a deployment's history. -/
inductive StepKind
  | init
  | plan
  | apply
  | destroy
deriving DecidableEq, Repr

/-- The status a recorded step can carry. -/
inductive StepStatus
  | successful
  | failed
  | cancelled
deriving DecidableEq, Repr

/-- One entry of a deployment's step history. The timestamp attribute comes
from the deployment schema (src/models/deployment.schema, not under src/);
it is the field refreshed by the cancel operation at tofuInjector.ts:518. -/
structure Step where
  step : StepKind
  stepStatus : StepStatus
  message : String
  logFileContent : String
  timestamp : Nat
deriving DecidableEq, Repr

/-- The deployment aggregate (spec section 3; fields as created at
tofuInjector.ts:307-321). -/
structure Deployment where
  deploymentId : String
  projectId : String
  spaceId : String
  deploymentName : String
  steps : List Step
  startedAt : Nat
deriving DecidableEq, Repr

/-- The deployment collection, in document order. -/
abbrev Ledger := List Deployment

/-- `findOne` on the deployment id: the first document with that id. -/
def findDeployment (db : Ledger) (id : String) : Option Deployment :=
  db.find? (fun d => d.deploymentId == id)

/-- `updateOne` filtered on the deployment id: apply the update to the
first document with that id, leaving every other document unchanged. -/
def updateFirst (db : Ledger) (id : String) (f : Deployment → Deployment) :
    Ledger :=
  match db with
  | [] => []
  | d :: rest =>
    if d.deploymentId = id then f d :: rest
    else d :: updateFirst rest id f

/-- The ledger error surfaced as a 404 response. -/
inductive LedgerError
  | notFound
deriving DecidableEq, Repr

/-- JavaScript string OR-chaining (the fallback chains such as
combined OR stdout OR stderr at tofuInjector.ts:293): the empty string is
falsy, so the left operand wins iff it is non-empty. -/
def jsOr (a b : String) : String :=
  if a = "" then b else a

/-- Status derivation shared by every step-producing operation
(tofuInjector.ts:292, 315, 372, 429, 480): successful iff the exit code is
exactly zero, failed otherwise — also when the exit code is absent. -/
def statusOfExit (exitCode : Option Int) : StepStatus :=
  if exitCode = some 0 then .successful else .failed

/-- The init step pushed by `tofuInit` (tofuInjector.ts:289-296). -/
def initStepOf (now : Nat) (r : CommandResult) : Step :=
  { step := .init
    stepStatus := statusOfExit r.exitCode
    message := jsOr r.combined (jsOr r.stdout r.stderr)
    logFileContent := r.logFileContent
    timestamp := now }

/-- The update of tofuInjector.ts:282-285: pull every step of kind init
out of the first matching document's step sequence. -/
def pullInitSteps (db : Ledger) (id : String) : Ledger :=
  updateFirst db id
    (fun d => { d with steps := d.steps.filter (fun s => decide (s.step ≠ StepKind.init)) })

/-- The update of tofuInjector.ts:286-298: push one step onto the first
matching document's step sequence. -/
def pushStep (db : Ledger) (id : String) (s : Step) : Ledger :=
  updateFirst db id (fun d => { d with steps := d.steps ++ [s] })

/-- The existing-deployment branch of `tofuInit` (tofuInjector.ts:274-298):
look the deployment up — not found if absent — then pull every init step
and push the freshly derived one. -/
def recordInitStepExisting (db : Ledger) (id : String) (now : Nat)
    (r : CommandResult) : Except LedgerError Ledger :=
  match findDeployment db id with
  | none => .error .notFound
  | some _ => .ok (pushStep (pullInitSteps db id) id (initStepOf now r))

/-- Modelled from the spec: `addDeploymentStep` of
src/repositories/deployment.reposiory.ts is imported at tofuInjector.ts:5
but its source is not under src/. Per spec section 4.3 it fails with
NotFound when the deployment is unknown and otherwise appends the derived
step to the step sequence unconditionally. -/
def addDeploymentStep (db : Ledger) (id : String) (s : Step) :
    Except LedgerError Ledger :=
  match findDeployment db id with
  | none => .error .notFound
  | some _ => .ok (pushStep db id s)

/-- Repeated step appends: run `addDeploymentStep` once per given step, in
order, stopping at the first error. -/
def appendStepIter (db : Ledger) (id : String) : List Step → Except LedgerError Ledger
  | [] => .ok db
  | s :: rest =>
    match addDeploymentStep db id s with
    | .error e => .error e
    | .ok db1 => appendStepIter db1 id rest

/-- Whether a deployment document matches the array condition of the cancel
filter (tofuInjector.ts:514): some step of the sequence has kind plan. -/
def hasPlanStep (d : Deployment) : Bool :=
  d.steps.any (fun s => s.step == StepKind.plan)

/-- The in-place rewrite the positional cancel update applies to the
matched entry (tofuInjector.ts:516-519): status cancelled, timestamp
refreshed, every other attribute kept. -/
def cancelledStep (now : Nat) (s : Step) : Step :=
  { s with stepStatus := .cancelled, timestamp := now }

/-- The positional update of tofuInjector.ts:516-519: set the status of the
first step of kind plan to cancelled and refresh its timestamp; every other
step is left untouched. -/
def cancelFirstPlan (now : Nat) : List Step → List Step
  | [] => []
  | s :: rest =>
    if s.step = StepKind.plan then cancelledStep now s :: rest
    else s :: cancelFirstPlan now rest

/-- The `updateOne` of `tofuPlanDeny` (tofuInjector.ts:513-521): find the
first document whose id matches and whose step sequence contains a plan
step, apply the positional cancel update to it, and report whether any
document matched. -/
def tofuPlanDenyUpdate (db : Ledger) (id : String) (now : Nat) :
    Bool × Ledger :=
  match db with
  | [] => (false, [])
  | d :: rest =>
    if d.deploymentId = id ∧ hasPlanStep d then
      (true, { d with steps := cancelFirstPlan now d.steps } :: rest)
    else
      ((tofuPlanDenyUpdate rest id now).1, d :: (tofuPlanDenyUpdate rest id now).2)

/-- Interface outcome of the cancel operation. -/
inductive CancelOutcome
  | ok
  | notFound
deriving DecidableEq, Repr

/-- The ledger-facing part of `tofuPlanDeny` (tofuInjector.ts:513-528): run
the update; a matched count of zero yields the not-found response, otherwise
the success response is sent. -/
def cancelPlanStep (db : Ledger) (id : String) (now : Nat) :
    CancelOutcome × Ledger :=
  ((if (tofuPlanDenyUpdate db id now).1 then .ok else .notFound),
   (tofuPlanDenyUpdate db id now).2)

/-! ## Response bodies (tofuInjector.ts:324-330, 377-388, 434-439, 485-490,
528) -/

/-- A serialised response value: the JSON-like values the endpoints place in
their response objects. -/
inductive RVal
  | str (s : String)
  | intv (n : Int)
  | nullv
  | boolv (b : Bool)
  | obj (fields : List (String × RVal))

/-- Serialisation of the optional exit code: a JavaScript null becomes a
JSON null. -/
def exitCodeRVal : Option Int → RVal
  | none => .nullv
  | some n => .intv n

/-- One optional numeric field of the serialised summary: present iff set. -/
def optField (name : String) (n : Option Nat) : List (String × RVal) :=
  match n with
  | some v => [(name, RVal.intv (v : Int))]
  | none => []

/-- Serialisation of the summary: null when absent, otherwise an object
holding exactly the fields the match branch set. -/
def summaryRVal : Option Summary → RVal
  | none => .nullv
  | some s =>
    .obj (optField "toAdd" s.toAdd ++ optField "toChange" s.toChange ++
          optField "toDestroy" s.toDestroy ++ optField "added" s.added ++
          optField "changed" s.changed ++ optField "destroyed" s.destroyed)

/-- JavaScript object-literal key insertion: an existing key keeps its
position and has its value overwritten, a new key is appended. -/
def jsSet (fields : List (String × RVal)) (k : String) (v : RVal) :
    List (String × RVal) :=
  if fields.any (fun f => f.1 == k) then
    fields.map (fun f => if f.1 == k then (k, v) else f)
  else fields ++ [(k, v)]

/-- JavaScript spread of one object literal into another: insert the spread
fields left to right. -/
def jsMerge (fields extra : List (String × RVal)) : List (String × RVal) :=
  extra.foldl (fun acc kv => jsSet acc kv.1 kv.2) fields

/-- The fields contributed by spreading a `CommandResult`, in the insertion
order of the resolve literal (tofuInjector.ts:220-227). -/
def resultFields (r : CommandResult) : List (String × RVal) :=
  [("exitCode", exitCodeRVal r.exitCode), ("stdout", .str r.stdout),
   ("stderr", .str r.stderr), ("combined", .str r.combined),
   ("logFileContent", .str r.logFileContent),
   ("summary", summaryRVal r.summary)]

/-- The response body of `tofuInit` (tofuInjector.ts:324-330). -/
def tofuInitResponse (finalDeploymentId deploymentName : String)
    (r : CommandResult) : List (String × RVal) :=
  jsMerge
    [("command", .str "tofu init"), ("deploymentId", .str finalDeploymentId),
     ("deploymentName", .str deploymentName),
     ("logFileContent", .str r.logFileContent)]
    (resultFields r)

/-- The response body of `tofuPlan` (tofuInjector.ts:377-388). -/
def tofuPlanResponse (r : CommandResult) : List (String × RVal) :=
  [("stepName", .str "Plan"),
   ("humanReadable",
     .obj [("raw", .str r.stdout),
           ("summary", summaryRVal (parseTofuSummary r.stdout))]),
   ("exitCode", exitCodeRVal r.exitCode), ("stderr", .str r.stderr),
   ("logFileContent", .str r.logFileContent), ("rawFormat", .str r.stdout)]

/-- The response body of `tofuApply` (tofuInjector.ts:434-439). -/
def tofuApplyResponse (deploymentId : String) (r : CommandResult) :
    List (String × RVal) :=
  jsMerge
    [("command", .str "tofu apply"), ("deploymentId", .str deploymentId),
     ("logFileContent", .str r.logFileContent)]
    (resultFields r)

/-- The response body of `tofuDestroy` (tofuInjector.ts:485-490). -/
def tofuDestroyResponse (deploymentId : String) (r : CommandResult) :
    List (String × RVal) :=
  jsMerge
    [("command", .str "tofu destroy"), ("deploymentId", .str deploymentId),
     ("logFileContent", .str r.logFileContent)]
    (resultFields r)

/-- The response body of `tofuPlanDeny` (tofuInjector.ts:528). -/
def cancelResponse (deploymentId : String) : List (String × RVal) :=
  [("success", .boolv true), ("message", .str "Plan Step Cancelled by User"),
   ("deploymentId", .str deploymentId)]

/-- The field-name shape the spec claims for every step endpoint (spec
section 6), with the optional deployment name present. -/
def claimedStepFieldsNamed : List String :=
  ["command", "deploymentId", "deploymentName", "exitCode", "stdout",
   "stderr", "combined", "logFileContent", "summary"]

/-- The field-name shape the spec claims for every step endpoint (spec
section 6), with the optional deployment name absent. -/
def claimedStepFields : List String :=
  ["command", "deploymentId", "exitCode", "stdout", "stderr", "combined",
   "logFileContent", "summary"]

/-! ## Endpoint flow of `tofuApply` (tofuInjector.ts:399-444) -/

/-- The interface-level outcome of one request. -/
inductive HttpResponse
  | ok (body : List (String × RVal))
  | err (status : Nat)

/-- The step appended by `tofuApply` (tofuInjector.ts:426-432); the message
falls back from stdout to stderr. -/
def applyStepOf (now : Nat) (r : CommandResult) : Step :=
  { step := .apply
    stepStatus := statusOfExit r.exitCode
    message := jsOr r.stdout r.stderr
    logFileContent := r.logFileContent
    timestamp := now }

/-- The control flow of `tofuApply` (tofuInjector.ts:399-444) over the
embedded collaborators: missing body fields give 400, an unknown project
404, a missing image name or an empty environment list 500, a spawn
rejection is caught and gives 500; otherwise the step derived from the
result is appended to the ledger and the success body is sent. The
not-found branch of the step append is modelled from the spec's error
taxonomy (section 7, NotFoundError gives 404) since the repository module
is not under src/. -/
def tofuApplyEndpoint (db : Ledger) (now : Nat) (projectFound : Bool)
    (imageName : Option String) (containerIds : List String)
    (spaceName deploymentId : Option String) (p : ProcTrace)
    (lt : LogReadTrace) (workspacePath : String) : HttpResponse × Ledger :=
  match spaceName with
  | none => (.err 400, db)
  | some _ =>
    match deploymentId with
    | none => (.err 400, db)
    | some depId =>
      match projectFound with
      | false => (.err 404, db)
      | true =>
        match imageName with
        | none => (.err 500, db)
        | some _ =>
          match containerIds with
          | [] => (.err 500, db)
          | _ :: _ =>
            match runCommandsResult p lt false workspacePath with
            | .error _ => (.err 500, db)
            | .ok r =>
              match addDeploymentStep db depId (applyStepOf now r) with
              | .error .notFound => (.err 404, db)
              | .ok db1 => (.ok (tofuApplyResponse depId r), db1)

/-! ## Concrete sample data, used to evaluate the theorems on closed
inputs -/

/-- A concrete command result with the given exit code. -/
def sampleResult (code : Option Int) : CommandResult :=
  { exitCode := code, stdout := "out", stderr := "", combined := "out",
    logFileContent := "", summary := none }

/-- A concrete init step entry. -/
def sampleInitStep : Step :=
  initStepOf 0 (sampleResult (some 1))

/-- A concrete plan step entry. -/
def samplePlanStep : Step :=
  { step := .plan, stepStatus := .successful, message := "m",
    logFileContent := "", timestamp := 3 }

/-- A concrete deployment whose history holds one init entry. -/
def sampleInitDeployment : Deployment :=
  { deploymentId := "dep-1", projectId := "p", spaceId := "s",
    deploymentName := "p-s-1", steps := [sampleInitStep], startedAt := 0 }

/-- A concrete deployment whose history holds one init and two plan
entries. -/
def samplePlanDeployment : Deployment :=
  { deploymentId := "dep-2", projectId := "p", spaceId := "s",
    deploymentName := "p-s-2",
    steps := [sampleInitStep, samplePlanStep,
              { samplePlanStep with timestamp := 4 }],
    startedAt := 0 }

/-! ## Shared helper lemmas -/

theorem str_append_assoc (a b c : String) : a ++ b ++ c = a ++ (b ++ c) := by
  apply String.ext
  simp

theorem str_append_empty (a : String) : a ++ "" = a := by
  apply String.ext
  simp

theorem str_empty_append (a : String) : "" ++ a = a := by
  apply String.ext
  simp

theorem lineSummary_eq_none_iff (l : List Char) :
    lineSummary l = none ↔
      matchPlan l = none ∧ matchApply l = none ∧ matchDestroy l = none := by
  unfold lineSummary
  cases hp : matchPlan l with
  | some v => simp
  | none =>
    cases ha : matchApply l with
    | some v => simp
    | none =>
      cases hd : matchDestroy l with
      | some v => simp
      | none => simp

theorem parseTofuSummaryLines_eq_findSome? (ls : List (List Char)) :
    parseTofuSummaryLines ls = ls.findSome? lineSummary := by
  induction ls with
  | nil => rfl
  | cons l rest ih =>
    rw [List.findSome?_cons]
    unfold parseTofuSummaryLines lineSummary
    cases hp : matchPlan l with
    | some v =>
      obtain ⟨a, c, d⟩ := v
      simp
    | none =>
      cases ha : matchApply l with
      | some v =>
        obtain ⟨a, c, d⟩ := v
        simp
      | none =>
        cases hd : matchDestroy l with
        | some d => simp
        | none => simpa using ih

/-! ## C2 -/

/-- C2: the primary summarizer scans lines in order and returns the record
of the first line where one of the three patterns matches — plan before
apply before destroy on each line — stopping there; when no line matches,
the summary is absent (null), never a zero-valued record and never an
error (the function is total by construction). The three concrete
conjuncts instantiate the three patterns of spec section 8. -/
theorem parseTofuSummary_first_match_wins :
    (∀ s : String,
       parseTofuSummary s = (splitLines s.data).findSome? lineSummary) ∧
    (∀ s : String,
       parseTofuSummary s = none ↔
         ∀ line ∈ splitLines s.data,
           matchPlan line = none ∧ matchApply line = none ∧
           matchDestroy line = none) ∧
    parseTofuSummary "Plan: 3 to add, 1 to change, 2 to destroy"
      = some (planSummary 3 1 2) ∧
    parseTofuSummary "Apply complete! Resources: 5 added, 0 changed, 1 destroyed"
      = some (applySummary 5 0 1) ∧
    parseTofuSummary "Destroy complete! Resources: 4 destroyed"
      = some (destroySummary 4) ∧
    parseTofuSummary
        "x\nPlan: 10 to add, 0 to change, 0 to destroy\nApply complete! Resources: 1 added, 2 changed, 3 destroyed"
      = some (planSummary 10 0 0) ∧
    parseTofuSummary "No changes. Your infrastructure matches the configuration."
      = none := by
  refine ⟨fun s => ?_, fun s => ?_, by decide, by decide, by decide, by decide, by decide⟩
  · exact parseTofuSummaryLines_eq_findSome? _
  · rw [parseTofuSummary, parseTofuSummaryLines_eq_findSome?,
      List.findSome?_eq_none_iff]
    constructor
    · intro h line hline
      exact (lineSummary_eq_none_iff line).mp (h line hline)
    · intro h line hline
      exact (lineSummary_eq_none_iff line).mpr (h line hline)

/-! ## C1 -/

theorem collectStream_foldl_acc (tag : StreamTag) (t : ChunkTrace) :
    ∀ a : String,
      t.foldl (fun buf c => if c.1 = tag then buf ++ c.2 else buf) a
        = a ++ collectStream tag t := by
  induction t with
  | nil => intro a; simp [collectStream, str_append_empty]
  | cons c t ih =>
    intro a
    unfold collectStream
    simp only [List.foldl_cons]
    rw [ih, ih]
    by_cases h : c.1 = tag
    · rw [if_pos h, if_pos h, str_empty_append, str_append_assoc]
    · rw [if_neg h, if_neg h, str_empty_append]

theorem arrivalConcat_foldl_acc (t : ChunkTrace) :
    ∀ a : String, t.foldl (fun buf c => buf ++ c.2) a = a ++ arrivalConcat t := by
  induction t with
  | nil => intro a; simp [arrivalConcat, str_append_empty]
  | cons c t ih =>
    intro a
    unfold arrivalConcat
    simp only [List.foldl_cons]
    rw [ih, ih, str_empty_append, str_append_assoc]

theorem collectStream_cons (tag : StreamTag) (c : StreamTag × String)
    (t : ChunkTrace) :
    collectStream tag (c :: t)
      = (if c.1 = tag then c.2 else "") ++ collectStream tag t := by
  have h1 : collectStream tag (c :: t)
      = List.foldl (fun buf c => if c.1 = tag then buf ++ c.2 else buf)
          (if c.1 = tag then "" ++ c.2 else "") t := rfl
  rw [h1, collectStream_foldl_acc]
  by_cases h : c.1 = tag
  · rw [if_pos h, if_pos h, str_empty_append]
  · rw [if_neg h, if_neg h]

theorem arrivalConcat_cons (c : StreamTag × String) (t : ChunkTrace) :
    arrivalConcat (c :: t) = c.2 ++ arrivalConcat t := by
  have h1 : arrivalConcat (c :: t)
      = List.foldl (fun buf c => buf ++ c.2) ("" ++ c.2) t := rfl
  rw [h1, arrivalConcat_foldl_acc, str_empty_append]

theorem collectStream_eq_arrivalConcat_filter (tag : StreamTag)
    (t : ChunkTrace) :
    collectStream tag t = arrivalConcat (t.filter (fun c => c.1 == tag)) := by
  induction t with
  | nil => rfl
  | cons c t ih =>
    rw [collectStream_cons]
    by_cases h : c.1 = tag
    · rw [if_pos h, List.filter_cons_of_pos (by simpa using h),
        arrivalConcat_cons, ih]
    · rw [if_neg h, List.filter_cons_of_neg (by simpa using h), ih,
        str_empty_append]

/-- C1 counterexample: a run in which a stderr chunk arrives before a stdout
chunk; the assembled `combined` puts the stdout buffer first, so the chunks
do not appear in chronological arrival order. -/
theorem combined_not_arrival_order :
    combinedOf [(StreamTag.err, "e"), (StreamTag.out, "o")]
      ≠ arrivalConcat [(StreamTag.err, "e"), (StreamTag.out, "o")] := by
  decide

/-- C1 amended: `combined` is the full stdout buffer followed by the full
stderr buffer; each stream is preserved in its own arrival order (the
stdout part is the arrival-order concatenation of the stdout chunks, the
stderr part of the stderr chunks), and `combined` equals the true
chronological interleaving whenever all chunks arrived on a single stream —
the situation the shell-level stderr redirection is there to produce — but
not for every mixed-stream run. -/
theorem combined_is_stdout_then_stderr (t : ChunkTrace) :
    combinedOf t = collectStream .out t ++ collectStream .err t ∧
    collectStream .out t = arrivalConcat (t.filter (fun c => c.1 == StreamTag.out)) ∧
    collectStream .err t = arrivalConcat (t.filter (fun c => c.1 == StreamTag.err)) ∧
    ((∀ c ∈ t, c.1 = StreamTag.out) → combinedOf t = arrivalConcat t) ∧
    ((∀ c ∈ t, c.1 = StreamTag.err) → combinedOf t = arrivalConcat t) := by
  refine ⟨rfl, collectStream_eq_arrivalConcat_filter _ t,
    collectStream_eq_arrivalConcat_filter _ t, fun h => ?_, fun h => ?_⟩
  · have h1 : t.filter (fun c => c.1 == StreamTag.out) = t :=
      List.filter_eq_self.mpr (fun c hc => by simp [h c hc])
    have h2 : t.filter (fun c => c.1 == StreamTag.err) = [] :=
      List.filter_eq_nil_iff.mpr (fun c hc => by simp [h c hc])
    rw [combinedOf, collectStream_eq_arrivalConcat_filter,
      collectStream_eq_arrivalConcat_filter, h1, h2]
    exact str_append_empty _
  · have h1 : t.filter (fun c => c.1 == StreamTag.out) = [] :=
      List.filter_eq_nil_iff.mpr (fun c hc => by simp [h c hc])
    have h2 : t.filter (fun c => c.1 == StreamTag.err) = t :=
      List.filter_eq_self.mpr (fun c hc => by simp [h c hc])
    rw [combinedOf, collectStream_eq_arrivalConcat_filter,
      collectStream_eq_arrivalConcat_filter, h1, h2]
    exact str_empty_append _

/-- C1 amended, witness: a single-stream run where `combined` does equal the
chronological arrival order. -/
theorem combined_is_stdout_then_stderr_witness :
    combinedOf [(StreamTag.out, "a"), (StreamTag.out, "b")]
      = arrivalConcat [(StreamTag.out, "a"), (StreamTag.out, "b")] :=
  (combined_is_stdout_then_stderr
    [(StreamTag.out, "a"), (StreamTag.out, "b")]).2.2.2.1 (by decide)

/-! ## C3 -/

theorem escape_foldl_acc (l : List Char) :
    ∀ acc : List Char,
      l.foldl (fun acc c => acc ++ escapeChar c) acc
        = acc ++ (l.map escapeChar).flatten := by
  induction l with
  | nil => intro acc; simp
  | cons c l ih =>
    intro acc
    simp only [List.foldl_cons, List.map_cons, List.flatten_cons]
    rw [ih, List.append_assoc]

theorem shellEscape_eq_specEscape (s : String) : shellEscape s = specEscape s := by
  unfold shellEscape specEscape
  rw [escape_foldl_acc]
  rfl

theorem chainJoin_append (c d : String) (ds : List String) :
    chainJoin (c ++ d) ds = c ++ chainJoin d ds := by
  cases ds with
  | nil => rfl
  | cons e es => simp only [chainJoin, str_append_assoc]

theorem intercalate_go_chainJoin (cs : List String) :
    ∀ c : String, String.intercalate.go c " && " cs = chainJoin c cs := by
  induction cs with
  | nil => intro c; rfl
  | cons d ds ih =>
    intro c
    show String.intercalate.go (c ++ " && " ++ d) " && " ds = chainJoin c (d :: ds)
    rw [ih]
    exact chainJoin_append (c ++ " && ") d ds

theorem fullCmd_cons (c : String) (cs : List String) :
    fullCmd (c :: cs) = chainJoin c cs :=
  intercalate_go_chainJoin cs c

theorem andChainRun_short_circuit (exec : String → Int) (pre : List String)
    (c : String) (post : List String) :
    (∀ q ∈ pre, exec q = 0) → exec c ≠ 0 →
    andChainRun exec (pre ++ c :: post) = (pre ++ [c], exec c) := by
  induction pre with
  | nil =>
    intro _ hc
    simp [andChainRun, hc]
  | cons q qs ih =>
    intro hpre hc
    have h0 : exec q = 0 := hpre q (List.mem_cons_self q qs)
    have ih' := ih (fun r hr => hpre r (List.mem_cons_of_mem q hr)) hc
    simp [andChainRun, h0, ih']

/-- C3: for every workspace path and non-empty command sequence the shell
string handed to the execution environment is exactly the change-directory
command on the escaped path, the AND-chain of the commands, and the
shell-level redirection of the error stream into the success stream; the
escaping routine agrees with the specification's per-character quoting of
the shell-special set, and in the AND-chain semantics a failing command
short-circuits every later command. -/
theorem wrappedCmd_exact_shape :
    (∀ (workspacePath c : String) (cs : List String),
       wrappedCmd workspacePath (c :: cs)
         = "cd " ++ specEscape workspacePath ++ " && " ++ chainJoin c cs ++ " 2>&1") ∧
    (∀ s : String, shellEscape s = specEscape s) ∧
    (∀ (exec : String → Int) (pre : List String) (c : String) (post : List String),
       (∀ q ∈ pre, exec q = 0) → exec c ≠ 0 →
       andChainRun exec (pre ++ c :: post) = (pre ++ [c], exec c)) := by
  refine ⟨fun p c cs => ?_, shellEscape_eq_specEscape, andChainRun_short_circuit⟩
  rw [wrappedCmd, fullCmd_cons, shellEscape_eq_specEscape]

/-- C3 witness: the crafted path of spec section 8 — a space in the
workspace path is escaped, the chain is joined with the AND operator and
ends in the redirection; a failing head command short-circuits the rest. -/
theorem wrappedCmd_exact_shape_witness :
    wrappedCmd "/workspace/my proj/dev" ["tofu init -input=false -no-color"]
      = "cd /workspace/my\\ proj/dev && tofu init -input=false -no-color 2>&1" ∧
    andChainRun (fun s => if s = "a" then 0 else 2) (["a"] ++ "b" :: ["c"])
      = (["a"] ++ ["b"], (fun s : String => if s = "a" then (0 : Int) else 2) "b") := by
  constructor
  · have h := wrappedCmd_exact_shape.1 "/workspace/my proj/dev"
      "tofu init -input=false -no-color" []
    rw [h]
    decide
  · exact wrappedCmd_exact_shape.2.2 (fun s => if s = "a" then 0 else 2)
      ["a"] "b" ["c"] (by decide) (by decide)

/-! ## C4 -/

theorem findDeployment_updateFirst (db : Ledger) (id : String)
    (f : Deployment → Deployment)
    (hf : ∀ d, (f d).deploymentId = d.deploymentId) :
    findDeployment (updateFirst db id f) id = (findDeployment db id).map f := by
  induction db with
  | nil => rfl
  | cons d rest ih =>
    by_cases h : d.deploymentId = id
    · have hx : ((f d).deploymentId == id) = true := by simp [hf d, h]
      have hy : (d.deploymentId == id) = true := by simp [h]
      unfold updateFirst findDeployment
      rw [if_pos h]
      simp only [List.find?]
      rw [hx, hy]
      rfl
    · have hy : (d.deploymentId == id) = false := by simp [h]
      unfold updateFirst findDeployment
      rw [if_neg h]
      simp only [List.find?]
      rw [hy]
      exact ih

theorem findDeployment_pushStep (db : Ledger) (id : String) (s : Step)
    (d : Deployment) (hd : findDeployment db id = some d) :
    findDeployment (pushStep db id s) id = some { d with steps := d.steps ++ [s] } := by
  unfold pushStep
  rw [findDeployment_updateFirst db id
    (fun d => { d with steps := d.steps ++ [s] }) (fun _ => rfl), hd]
  rfl

theorem findDeployment_pullInitSteps (db : Ledger) (id : String)
    (d : Deployment) (hd : findDeployment db id = some d) :
    findDeployment (pullInitSteps db id) id
      = some { d with steps := d.steps.filter (fun s => decide (s.step ≠ StepKind.init)) } := by
  unfold pullInitSteps
  rw [findDeployment_updateFirst db id
    (fun d => { d with steps := d.steps.filter (fun s => decide (s.step ≠ StepKind.init)) })
    (fun _ => rfl), hd]
  rfl

theorem filter_ne_init_idem (l : List Step) :
    (l.filter (fun s => decide (s.step ≠ StepKind.init))).filter
        (fun s => decide (s.step ≠ StepKind.init))
      = l.filter (fun s => decide (s.step ≠ StepKind.init)) := by
  rw [List.filter_filter]
  congr 1
  funext s
  by_cases h : s.step = StepKind.init <;> simp [h]

theorem recordInitStepExisting_ok (db : Ledger) (id : String) (now : Nat)
    (r : CommandResult) (d : Deployment) (hd : findDeployment db id = some d) :
    recordInitStepExisting db id now r
      = .ok (pushStep (pullInitSteps db id) id (initStepOf now r)) := by
  unfold recordInitStepExisting
  rw [hd]

/-- C4: on a known deployment, the init recorder removes every existing init
step and appends the freshly derived one, so two consecutive calls leave a
step sequence whose init entries are exactly the one derived from the
second result, with the non-init history untouched; on an unknown
deployment it fails with not-found. -/
theorem recordInitStep_idempotent (db : Ledger) (id : String) (now1 now2 : Nat)
    (r1 r2 : CommandResult) :
    (findDeployment db id = none →
      recordInitStepExisting db id now1 r1 = .error .notFound) ∧
    (∀ d, findDeployment db id = some d →
      ∃ db1 db2 d2,
        recordInitStepExisting db id now1 r1 = .ok db1 ∧
        recordInitStepExisting db1 id now2 r2 = .ok db2 ∧
        findDeployment db2 id = some d2 ∧
        d2.steps = d.steps.filter (fun s => decide (s.step ≠ StepKind.init))
          ++ [initStepOf now2 r2] ∧
        d2.steps.filter (fun s => decide (s.step = StepKind.init))
          = [initStepOf now2 r2]) := by
  constructor
  · intro h
    unfold recordInitStepExisting
    rw [h]
  · intro d hd
    have h1 := recordInitStepExisting_ok db id now1 r1 d hd
    have hfp := findDeployment_pullInitSteps db id d hd
    have hf1 := findDeployment_pushStep (pullInitSteps db id) id
      (initStepOf now1 r1) _ hfp
    have h2 := recordInitStepExisting_ok _ id now2 r2 _ hf1
    have hfp2 := findDeployment_pullInitSteps _ id _ hf1
    have hsteps1 :
        ({ d with steps := d.steps.filter (fun s => decide (s.step ≠ StepKind.init)) } : Deployment).steps
          ++ [initStepOf now1 r1]
        = d.steps.filter (fun s => decide (s.step ≠ StepKind.init))
          ++ [initStepOf now1 r1] := rfl
    have hfilter :
        ((d.steps.filter (fun s => decide (s.step ≠ StepKind.init))
            ++ [initStepOf now1 r1]).filter (fun s => decide (s.step ≠ StepKind.init)))
          = d.steps.filter (fun s => decide (s.step ≠ StepKind.init)) := by
      rw [List.filter_append, filter_ne_init_idem]
      simp [initStepOf]
    have hf2 := findDeployment_pushStep (pullInitSteps _ id) id
      (initStepOf now2 r2) _ hfp2
    refine ⟨_, _, _, h1, h2, hf2, ?_, ?_⟩
    · simp only [hsteps1, hfilter]
    · simp only [hsteps1, hfilter]
      rw [List.filter_append]
      have hnil : (d.steps.filter (fun s => decide (s.step ≠ StepKind.init))).filter
          (fun s => decide (s.step = StepKind.init)) = [] := by
        rw [List.filter_filter]
        apply List.filter_eq_nil_iff.mpr
        intro s _
        by_cases h : s.step = StepKind.init <;> simp [h]
      rw [hnil]
      simp [initStepOf]

/-! ## C5 -/

theorem appendStepIter_ok (id : String) (ss : List Step) :
    ∀ (db : Ledger) (d : Deployment), findDeployment db id = some d →
      ∃ db' d', appendStepIter db id ss = .ok db' ∧
        findDeployment db' id = some d' ∧ d'.steps = d.steps ++ ss := by
  induction ss with
  | nil =>
    intro db d hd
    exact ⟨db, d, rfl, hd, by simp⟩
  | cons s rest ih =>
    intro db d hd
    have hadd : addDeploymentStep db id s = .ok (pushStep db id s) := by
      unfold addDeploymentStep
      rw [hd]
    have hfind1 := findDeployment_pushStep db id s d hd
    obtain ⟨db', d', h1, h2, h3⟩ := ih (pushStep db id s) _ hfind1
    refine ⟨db', d', ?_, h2, ?_⟩
    · unfold appendStepIter
      rw [hadd]
      exact h1
    · rw [h3]
      simp [List.append_assoc]

/-- C5: the step-append operation is unconditionally accumulating — on a
known deployment, appending a list of steps extends the step sequence by
exactly those entries, so a sequence of plan appends yields that many new
distinct plan entries, growing the plan count by the number of calls with
no replacement; on an unknown deployment the first append fails with
not-found. -/
theorem appendStep_accumulates (db : Ledger) (id : String) (ss : List Step) :
    (findDeployment db id = none → ∀ s rest, ss = s :: rest →
       appendStepIter db id ss = .error .notFound) ∧
    (∀ d, findDeployment db id = some d →
       ∃ db' d', appendStepIter db id ss = .ok db' ∧
         findDeployment db' id = some d' ∧
         d'.steps = d.steps ++ ss ∧
         ((∀ s ∈ ss, s.step = StepKind.plan) →
            (d'.steps.filter (fun s => decide (s.step = StepKind.plan))).length
              = (d.steps.filter (fun s => decide (s.step = StepKind.plan))).length
                + ss.length)) := by
  constructor
  · intro hnone s rest hss
    subst hss
    unfold appendStepIter addDeploymentStep
    rw [hnone]
  · intro d hd
    obtain ⟨db', d', h1, h2, h3⟩ := appendStepIter_ok id ss db d hd
    refine ⟨db', d', h1, h2, h3, fun hall => ?_⟩
    rw [h3, List.filter_append, List.length_append]
    congr 1
    rw [List.filter_eq_self.mpr (fun s hs => by simp [hall s hs])]

/-! ## C6 and C10 -/

theorem tofuPlanDenyUpdate_no_match (db : Ledger) (id : String) (now : Nat)
    (h : ∀ d ∈ db, d.deploymentId = id → hasPlanStep d = false) :
    tofuPlanDenyUpdate db id now = (false, db) := by
  induction db with
  | nil => rfl
  | cons d rest ih =>
    have hd : ¬(d.deploymentId = id ∧ hasPlanStep d = true) := by
      rintro ⟨h1, h2⟩
      rw [h d (List.mem_cons_self d rest) h1] at h2
      exact Bool.false_ne_true h2
    unfold tofuPlanDenyUpdate
    rw [if_neg hd, ih (fun d' hd' => h d' (List.mem_cons_of_mem d hd'))]

theorem tofuPlanDenyUpdate_match (db : Ledger) (id : String) (now : Nat) :
    (∃ d ∈ db, d.deploymentId = id ∧ hasPlanStep d = true) →
    (tofuPlanDenyUpdate db id now).1 = true := by
  induction db with
  | nil =>
    rintro ⟨d, hd, _⟩
    exact absurd hd (List.not_mem_nil d)
  | cons d rest ih =>
    rintro ⟨e, he, he1, he2⟩
    by_cases hd : d.deploymentId = id ∧ hasPlanStep d = true
    · unfold tofuPlanDenyUpdate
      rw [if_pos hd]
    · unfold tofuPlanDenyUpdate
      rw [if_neg hd]
      apply ih
      rcases List.mem_cons.mp he with rfl | hmem
      · exact absurd ⟨he1, he2⟩ hd
      · exact ⟨e, hmem, he1, he2⟩

theorem cancelFirstPlan_length (now : Nat) (steps : List Step) :
    (cancelFirstPlan now steps).length = steps.length := by
  induction steps with
  | nil => rfl
  | cons s rest ih =>
    unfold cancelFirstPlan
    by_cases h : s.step = StepKind.plan
    · rw [if_pos h]
      rfl
    · rw [if_neg h]
      simp [ih]

theorem cancelFirstPlan_first (now : Nat) (a : List Step) :
    ∀ (s : Step) (b : List Step),
      (∀ x ∈ a, x.step ≠ StepKind.plan) → s.step = StepKind.plan →
      cancelFirstPlan now (a ++ s :: b) = a ++ cancelledStep now s :: b := by
  induction a with
  | nil =>
    intro s b _ hs
    show (if s.step = StepKind.plan then cancelledStep now s :: b
          else s :: cancelFirstPlan now b) = [] ++ cancelledStep now s :: b
    rw [if_pos hs, List.nil_append]
  | cons x xs ih =>
    intro s b ha hs
    have hx : x.step ≠ StepKind.plan := ha x (List.mem_cons_self x xs)
    show (if x.step = StepKind.plan then cancelledStep now x :: (xs ++ s :: b)
          else x :: cancelFirstPlan now (xs ++ s :: b))
        = (x :: xs) ++ cancelledStep now s :: b
    rw [if_neg hx, ih s b (fun y hy => ha y (List.mem_cons_of_mem x hy)) hs,
      List.cons_append]

theorem hasPlanStep_of_split (d : Deployment) (a : List Step) (s : Step)
    (b : List Step) (hsteps : d.steps = a ++ s :: b)
    (hs : s.step = StepKind.plan) : hasPlanStep d = true := by
  unfold hasPlanStep
  rw [hsteps]
  apply List.any_eq_true.mpr
  exact ⟨s, List.mem_append_right a (List.mem_cons_self s b), by simp [hs]⟩

/-- C6: the cancel operation fails with not-found and leaves the ledger
completely unchanged whenever no document has the requested id with a plan
step in its sequence — covering both an unknown deployment and a deployment
without a plan step; when such a document exists the update matches and the
success outcome is produced, the update rewrites a plan entry in place
without changing the length of the step sequence (nothing appended, no
history removed). -/
theorem cancelStep_notFound_semantics (db : Ledger) (id : String) (now : Nat) :
    ((∀ d ∈ db, d.deploymentId = id → hasPlanStep d = false) →
        tofuPlanDenyUpdate db id now = (false, db) ∧
        cancelPlanStep db id now = (.notFound, db)) ∧
    ((∃ d ∈ db, d.deploymentId = id ∧ hasPlanStep d = true) →
        (tofuPlanDenyUpdate db id now).1 = true ∧
        (cancelPlanStep db id now).1 = .ok) ∧
    (∀ steps, (cancelFirstPlan now steps).length = steps.length) ∧
    (∀ (a : List Step) (s : Step) (b : List Step),
       (∀ x ∈ a, x.step ≠ StepKind.plan) → s.step = StepKind.plan →
       cancelFirstPlan now (a ++ s :: b) = a ++ cancelledStep now s :: b) := by
  refine ⟨fun h => ?_, fun h => ?_, cancelFirstPlan_length now,
    fun a s b ha hs => cancelFirstPlan_first now a s b ha hs⟩
  · have h1 := tofuPlanDenyUpdate_no_match db id now h
    refine ⟨h1, ?_⟩
    unfold cancelPlanStep
    rw [h1]
    rfl
  · have h1 := tofuPlanDenyUpdate_match db id now h
    refine ⟨h1, ?_⟩
    unfold cancelPlanStep
    rw [h1]
    rfl

/-- C6 witness: a ledger without any plan step yields not-found unchanged;
a ledger with a plan step yields the success outcome; length preservation
and the in-place rewrite evaluated on a concrete two-entry sequence. -/
theorem cancelStep_notFound_semantics_witness :
    (tofuPlanDenyUpdate [sampleInitDeployment] "dep-1" 7
        = (false, [sampleInitDeployment]) ∧
      cancelPlanStep [sampleInitDeployment] "dep-1" 7
        = (.notFound, [sampleInitDeployment])) ∧
    ((tofuPlanDenyUpdate [samplePlanDeployment] "dep-2" 7).1 = true ∧
      (cancelPlanStep [samplePlanDeployment] "dep-2" 7).1 = .ok) :=
  ⟨(cancelStep_notFound_semantics [sampleInitDeployment] "dep-1" 7).1 (by decide),
   ((cancelStep_notFound_semantics [samplePlanDeployment] "dep-2" 7).2.1
     ⟨samplePlanDeployment, by decide, by decide, by decide⟩)⟩

/-- C10: when the first matching document's step sequence splits as a
plan-free block, a plan entry and a tail, the cancel update rewrites exactly
that plan entry — status cancelled, timestamp refreshed — and leaves the
plan-free block, the tail (later plan entries included), every other field
of the deployment and every other document untouched. -/
theorem cancel_modifies_only_first_plan (id : String) (now : Nat)
    (pre : Ledger) (d : Deployment) (post : Ledger) (a : List Step)
    (s : Step) (b : List Step) :
    (∀ p ∈ pre, ¬(p.deploymentId = id ∧ hasPlanStep p = true)) →
    d.deploymentId = id →
    d.steps = a ++ s :: b →
    (∀ x ∈ a, x.step ≠ StepKind.plan) →
    s.step = StepKind.plan →
    tofuPlanDenyUpdate (pre ++ d :: post) id now
      = (true,
         pre ++ { d with steps := a ++ cancelledStep now s :: b } :: post) := by
  induction pre with
  | nil =>
    intro _ hid hsteps ha hs
    have hplan := hasPlanStep_of_split d a s b hsteps hs
    rw [List.nil_append, List.nil_append]
    unfold tofuPlanDenyUpdate
    rw [if_pos ⟨hid, hplan⟩, hsteps,
      cancelFirstPlan_first now a s b ha hs]
  | cons p ps ih =>
    intro hpre hid hsteps ha hs
    have hp : ¬(p.deploymentId = id ∧ hasPlanStep p = true) :=
      hpre p (List.mem_cons_self p ps)
    have ih' := ih (fun q hq => hpre q (List.mem_cons_of_mem p hq))
      hid hsteps ha hs
    rw [List.cons_append, List.cons_append]
    unfold tofuPlanDenyUpdate
    rw [if_neg hp, ih']

/-! ## C7 -/

/-- C7 counterexample: a log read-back killed by the timeout after it had
already delivered a chunk; the close handler stores the partial buffer, so
the resulting log content is not empty. -/
theorem logRead_timeout_not_always_empty :
    logFileContentOf { chunks := ["x"], outcome := .killedByTimeout } ≠ ""
      ∧ ({ chunks := ["x"], outcome := .killedByTimeout } : LogReadTrace).outcome
          = .killedByTimeout := by
  constructor
  · decide
  · rfl

/-- C7 amended: when the read-back is killed by the 3-second timeout its
content is exactly the data received before termination — empty when
nothing had been received, but not empty in general; a read-back error
yields empty content; and in every case the primary result still resolves,
with exit code, stream buffers, combined output and summary independent of
the read-back outcome. -/
theorem logRead_timeout_partial_and_primary_intact :
    (∀ lt : LogReadTrace, lt.outcome = .killedByTimeout →
        logFileContentOf lt = String.join lt.chunks ∧
        (lt.chunks = [] → logFileContentOf lt = "")) ∧
    (∀ lt : LogReadTrace, lt.outcome = .errored → logFileContentOf lt = "") ∧
    (∀ (chunks : ChunkTrace) (code : Option Int) (en : Bool) (wp : String)
       (lt lt' : LogReadTrace),
       ∃ r r',
         runCommandsResult { chunks := chunks, terminal := .closed code } lt en wp
           = .ok r ∧
         runCommandsResult { chunks := chunks, terminal := .closed code } lt' en wp
           = .ok r' ∧
         r.exitCode = code ∧ r'.exitCode = code ∧
         r.stdout = r'.stdout ∧ r.stderr = r'.stderr ∧
         r.combined = r'.combined ∧ r.summary = r'.summary) := by
  refine ⟨fun lt h => ?_, fun lt h => ?_,
    fun chunks code en wp lt lt' => ⟨_, _, rfl, rfl, rfl, rfl, rfl, rfl, rfl, rfl⟩⟩
  · constructor
    · unfold logFileContentOf
      rw [h]
    · intro hc
      unfold logFileContentOf
      rw [h, hc]
      rfl
  · unfold logFileContentOf
    rw [h]

/-- C7 amended, witness: a timed-out read-back with one received chunk, an
errored read-back, and a primary close with exit code 2 evaluated
concretely. -/
theorem logRead_timeout_partial_and_primary_intact_witness :
    (logFileContentOf { chunks := ["x"], outcome := .killedByTimeout }
        = String.join ["x"] ∧
      ((["x"] : List String) = [] →
        logFileContentOf { chunks := ["x"], outcome := .killedByTimeout } = "")) ∧
    logFileContentOf { chunks := ["y"], outcome := .errored } = "" ∧
    (∃ r r',
      runCommandsResult { chunks := [(StreamTag.out, "o")], terminal := .closed (some 2) }
          { chunks := [], outcome := .closedNormally } false "/w" = .ok r ∧
      runCommandsResult { chunks := [(StreamTag.out, "o")], terminal := .closed (some 2) }
          { chunks := ["z"], outcome := .killedByTimeout } false "/w" = .ok r' ∧
      r.exitCode = some 2 ∧ r'.exitCode = some 2 ∧
      r.stdout = r'.stdout ∧ r.stderr = r'.stderr ∧
      r.combined = r'.combined ∧ r.summary = r'.summary) :=
  ⟨logRead_timeout_partial_and_primary_intact.1
      { chunks := ["x"], outcome := .killedByTimeout } rfl,
   logRead_timeout_partial_and_primary_intact.2.1
      { chunks := ["y"], outcome := .errored } rfl,
   logRead_timeout_partial_and_primary_intact.2.2
      [(StreamTag.out, "o")] (some 2) false "/w"
      { chunks := [], outcome := .closedNormally }
      { chunks := ["z"], outcome := .killedByTimeout }⟩

/-! ## C8 -/

/-- C8: a non-zero or absent exit code is never a runner failure — the
runner rejects exactly when the process could not be spawned at all; the
derived step status is successful iff the exit code is exactly zero and
failed otherwise; and for every exit code the apply endpoint still answers
with its success response while recording a step whose status is failed
exactly when the exit code is not zero. -/
theorem nonzero_exit_not_failure :
    (∀ (p : ProcTrace) (lt : LogReadTrace) (en : Bool) (wp : String),
       runCommandsResult p lt en wp = .error () ↔ p.terminal = .spawnError) ∧
    (∀ code : Option Int, statusOfExit code = .successful ↔ code = some 0) ∧
    (∀ code : Option Int, statusOfExit code = .failed ↔ code ≠ some 0) ∧
    (∀ (db : Ledger) (d : Deployment) (now : Nat) (img cid : String)
       (cids : List String) (sn did : String) (chunks : ChunkTrace)
       (code : Option Int) (lt : LogReadTrace) (wp : String),
       findDeployment db did = some d →
       ∃ r db1 d1,
         runCommandsResult { chunks := chunks, terminal := .closed code } lt false wp
           = .ok r ∧
         r.exitCode = code ∧
         tofuApplyEndpoint db now true (some img) (cid :: cids) (some sn)
             (some did) { chunks := chunks, terminal := .closed code } lt wp
           = (.ok (tofuApplyResponse did r), db1) ∧
         findDeployment db1 did = some d1 ∧
         d1.steps = d.steps ++ [applyStepOf now r] ∧
         ((applyStepOf now r).stepStatus = .failed ↔ code ≠ some 0)) := by
  refine ⟨fun p lt en wp => ?_, fun code => ?_, fun code => ?_,
    fun db d now img cid cids sn did chunks code lt wp hd => ?_⟩
  · cases ht : p.terminal with
    | closed c =>
      unfold runCommandsResult
      rw [ht]
      constructor
      · intro h
        exact absurd h (by simp)
      · intro h
        exact absurd h (by simp)
    | spawnError =>
      unfold runCommandsResult
      rw [ht]
      simp
  · by_cases h : code = some 0 <;> simp [statusOfExit, h]
  · by_cases h : code = some 0 <;> simp [statusOfExit, h]
  · obtain ⟨r, hrun, hcode⟩ :
        ∃ r, runCommandsResult { chunks := chunks, terminal := .closed code } lt false wp
            = .ok r ∧ r.exitCode = code :=
      ⟨_, rfl, rfl⟩
    have hadd : addDeploymentStep db did (applyStepOf now r)
        = .ok (pushStep db did (applyStepOf now r)) := by
      unfold addDeploymentStep
      rw [hd]
    have hfind := findDeployment_pushStep db did (applyStepOf now r) d hd
    refine ⟨r, pushStep db did (applyStepOf now r), _, hrun, hcode, ?_, hfind,
      rfl, ?_⟩
    · simp only [tofuApplyEndpoint, hrun, hadd]
    · rw [show (applyStepOf now r).stepStatus = statusOfExit r.exitCode from rfl,
        hcode]
      by_cases h : code = some 0 <;> simp [statusOfExit, h]

/-! ## C9 -/

theorem tofuInitResponse_fields (idv name : String) (r : CommandResult) :
    (tofuInitResponse idv name r).map Prod.fst
      = ["command", "deploymentId", "deploymentName", "logFileContent",
         "exitCode", "stdout", "stderr", "combined", "summary"] := by
  simp [tofuInitResponse, jsMerge, jsSet, resultFields]

theorem tofuApplyResponse_fields (idv : String) (r : CommandResult) :
    (tofuApplyResponse idv r).map Prod.fst
      = ["command", "deploymentId", "logFileContent", "exitCode",
         "stdout", "stderr", "combined", "summary"] := by
  simp [tofuApplyResponse, jsMerge, jsSet, resultFields]

theorem tofuDestroyResponse_fields (idv : String) (r : CommandResult) :
    (tofuDestroyResponse idv r).map Prod.fst
      = ["command", "deploymentId", "logFileContent", "exitCode",
         "stdout", "stderr", "combined", "summary"] := by
  simp [tofuDestroyResponse, jsMerge, jsSet, resultFields]

theorem tofuPlanResponse_fields (r : CommandResult) :
    (tofuPlanResponse r).map Prod.fst
      = ["stepName", "humanReadable", "exitCode", "stderr",
         "logFileContent", "rawFormat"] := rfl

/-- C9 counterexample: on a concrete command result, the plan endpoint's
response body carries the fields stepName, humanReadable, exitCode, stderr,
logFileContent and rawFormat — it has no command, deploymentId, stdout,
combined or summary field, so the plan step endpoint does not return the
claimed shape. -/
theorem plan_response_shape_mismatch :
    (tofuPlanResponse (sampleResult (some 0))).map Prod.fst
      = ["stepName", "humanReadable", "exitCode", "stderr",
         "logFileContent", "rawFormat"] ∧
    ¬ "command" ∈ (tofuPlanResponse (sampleResult (some 0))).map Prod.fst ∧
    ¬ "deploymentId" ∈ (tofuPlanResponse (sampleResult (some 0))).map Prod.fst ∧
    ¬ "stdout" ∈ (tofuPlanResponse (sampleResult (some 0))).map Prod.fst ∧
    ¬ "combined" ∈ (tofuPlanResponse (sampleResult (some 0))).map Prod.fst ∧
    ¬ "summary" ∈ (tofuPlanResponse (sampleResult (some 0))).map Prod.fst := by
  refine ⟨rfl, ?_, ?_, ?_, ?_, ?_⟩ <;> decide

/-- C9 amended: the init, apply and destroy endpoints return exactly the
claimed field set — command, deploymentId, exitCode, stdout, stderr,
combined, logFileContent, summary, with deploymentName additionally present
on init — and the cancel endpoint returns success, message, deploymentId;
the plan endpoint instead returns stepName, humanReadable (raw and
summary), exitCode, stderr, logFileContent and rawFormat. -/
theorem endpoint_response_shapes :
    (∀ (idv name : String) (r : CommandResult),
       (tofuInitResponse idv name r).map Prod.fst
         = ["command", "deploymentId", "deploymentName", "logFileContent",
            "exitCode", "stdout", "stderr", "combined", "summary"] ∧
       ((tofuInitResponse idv name r).map Prod.fst).Perm
         claimedStepFieldsNamed) ∧
    (∀ (idv : String) (r : CommandResult),
       (tofuApplyResponse idv r).map Prod.fst
         = ["command", "deploymentId", "logFileContent", "exitCode",
            "stdout", "stderr", "combined", "summary"] ∧
       ((tofuApplyResponse idv r).map Prod.fst).Perm claimedStepFields) ∧
    (∀ (idv : String) (r : CommandResult),
       (tofuDestroyResponse idv r).map Prod.fst
         = ["command", "deploymentId", "logFileContent", "exitCode",
            "stdout", "stderr", "combined", "summary"] ∧
       ((tofuDestroyResponse idv r).map Prod.fst).Perm claimedStepFields) ∧
    (∀ r : CommandResult,
       (tofuPlanResponse r).map Prod.fst
         = ["stepName", "humanReadable", "exitCode", "stderr",
            "logFileContent", "rawFormat"]) ∧
    (∀ idv : String,
       (cancelResponse idv).map Prod.fst
         = ["success", "message", "deploymentId"]) := by
  refine ⟨fun idv name r => ⟨tofuInitResponse_fields idv name r, ?_⟩,
    fun idv r => ⟨tofuApplyResponse_fields idv r, ?_⟩,
    fun idv r => ⟨tofuDestroyResponse_fields idv r, ?_⟩,
    tofuPlanResponse_fields, fun idv => rfl⟩
  · rw [tofuInitResponse_fields]
    decide
  · rw [tofuApplyResponse_fields]
    decide
  · rw [tofuDestroyResponse_fields]
    decide

/-! ## Witnesses on concrete ledgers -/

/-- C4 witness: on an empty ledger the init recorder fails with not-found;
on a ledger holding one deployment with an old init entry, two consecutive
init recordings leave exactly the init entry derived from the second
result. -/
theorem recordInitStep_idempotent_witness :
    recordInitStepExisting [] "nope" 0 (sampleResult none) = .error .notFound ∧
    (∃ db1 db2 d2,
      recordInitStepExisting [sampleInitDeployment] "dep-1" 1
          (sampleResult (some 0)) = .ok db1 ∧
      recordInitStepExisting db1 "dep-1" 2 (sampleResult (some 2)) = .ok db2 ∧
      findDeployment db2 "dep-1" = some d2 ∧
      d2.steps = sampleInitDeployment.steps.filter
          (fun s => decide (s.step ≠ StepKind.init))
        ++ [initStepOf 2 (sampleResult (some 2))] ∧
      d2.steps.filter (fun s => decide (s.step = StepKind.init))
        = [initStepOf 2 (sampleResult (some 2))]) :=
  ⟨(recordInitStep_idempotent [] "nope" 0 0 (sampleResult none)
      (sampleResult none)).1 rfl,
   (recordInitStep_idempotent [sampleInitDeployment] "dep-1" 1 2
      (sampleResult (some 0)) (sampleResult (some 2))).2
      sampleInitDeployment (by decide)⟩

/-- C5 witness: appending on an empty ledger fails with not-found; two plan
appends on a known deployment extend its history by exactly those two plan
entries. -/
theorem appendStep_accumulates_witness :
    appendStepIter [] "nope" [samplePlanStep] = .error .notFound ∧
    (∃ db' d',
      appendStepIter [sampleInitDeployment] "dep-1"
          [samplePlanStep, samplePlanStep] = .ok db' ∧
      findDeployment db' "dep-1" = some d' ∧
      d'.steps = sampleInitDeployment.steps ++ [samplePlanStep, samplePlanStep] ∧
      ((∀ s ∈ [samplePlanStep, samplePlanStep], s.step = StepKind.plan) →
        (d'.steps.filter (fun s => decide (s.step = StepKind.plan))).length
          = (sampleInitDeployment.steps.filter
              (fun s => decide (s.step = StepKind.plan))).length + 2)) :=
  ⟨(appendStep_accumulates [] "nope" [samplePlanStep]).1 rfl
      samplePlanStep [] rfl,
   (appendStep_accumulates [sampleInitDeployment] "dep-1"
      [samplePlanStep, samplePlanStep]).2 sampleInitDeployment (by decide)⟩

/-- C8 witness: a run closing with exit code 1 still resolves, the apply
endpoint still answers with its success response, and the recorded step is
failed. -/
theorem nonzero_exit_not_failure_witness :
    ∃ r db1 d1,
      runCommandsResult
          { chunks := [(StreamTag.out, "boom")], terminal := .closed (some 1) }
          { chunks := [], outcome := .closedNormally } false "/w" = .ok r ∧
      r.exitCode = some 1 ∧
      tofuApplyEndpoint [sampleInitDeployment] 5 true (some "img") ["cid"]
          (some "sp") (some "dep-1")
          { chunks := [(StreamTag.out, "boom")], terminal := .closed (some 1) }
          { chunks := [], outcome := .closedNormally } "/w"
        = (.ok (tofuApplyResponse "dep-1" r), db1) ∧
      findDeployment db1 "dep-1" = some d1 ∧
      d1.steps = sampleInitDeployment.steps ++ [applyStepOf 5 r] ∧
      ((applyStepOf 5 r).stepStatus = .failed ↔ (some 1 : Option Int) ≠ some 0) :=
  nonzero_exit_not_failure.2.2.2 [sampleInitDeployment] sampleInitDeployment
    5 "img" "cid" [] "sp" "dep-1" [(StreamTag.out, "boom")] (some 1)
    { chunks := [], outcome := .closedNormally } "/w" (by decide)

/-- C10 witness: a deployment with two plan entries: the cancel update
rewrites only the first of them, leaving the later plan entry and all other
fields untouched. -/
theorem cancel_modifies_only_first_plan_witness :
    tofuPlanDenyUpdate [samplePlanDeployment] "dep-2" 9
      = (true,
         [{ samplePlanDeployment with
            steps := [sampleInitStep] ++ cancelledStep 9 samplePlanStep
              :: [{ samplePlanStep with timestamp := 4 }] }]) :=
  cancel_modifies_only_first_plan "dep-2" 9 [] samplePlanDeployment []
    [sampleInitStep] samplePlanStep [{ samplePlanStep with timestamp := 4 }]
    (by decide) (by decide) (by decide) (by decide) (by decide)

end Bagel
